import Mathlib

/-!
Verification of the MalDNS DNS forwarding proxy (src/src/dns.rs, src/src/main.rs)
against its natural-language specification.

Bytes are modelled as `Nat` (buffer contents are `u8`, so concrete inputs use
values < 256).  Fallible Rust code returning `Result<_, String>` is modelled as
`Except PErr _`; a Rust panic (an `unwrap` of `None`/`Err`, or an out-of-bounds
index) is modelled by the distinguished error `PErr.panicErr`, since a panic
aborts the whole process rather than yielding a `Result`.
-/

deriving instance DecidableEq for Except

set_option maxRecDepth 100000

namespace MalDNS

/-- Error kinds of the parser.  The Rust code uses `String` errors; the only
error ever constructed (dns.rs `advance_n`, line 150) carries the attempted
offset `current + n + 1` and the buffer length, modelled structurally as
`advanceErr`.  `panicErr` models a Rust panic (process abort). -/
inductive PErr where
  | advanceErr (pos : Nat) (len : Nat)
  | panicErr
deriving Repr, DecidableEq

/-- Big-endian 2-byte serialization of a 16-bit value (`u16::to_be_bytes`). -/
def be2 (n : Nat) : List Nat := [n / 256 % 256, n % 256]

/-- Big-endian 4-byte serialization of a 32-bit value (`u32::to_be_bytes`). -/
def be4 (n : Nat) : List Nat :=
  [n / 16777216 % 256, n / 65536 % 256, n / 256 % 256, n % 256]

/-- `u16::from_be_bytes` on a 2-byte slice (dns.rs line 187; the slice returned
by `advance_n(2)` always has exactly two elements, so the default is dead). -/
def be16 : List Nat → Nat
  | [a, b] => a * 256 + b
  | _ => 0

/-- dns.rs `Header` (lines 44-74): 12 bytes, big-endian, with the bit-packed
flags byte pair. -/
structure Header where
  id : Nat
  qr : Nat
  opcode : Nat
  aa : Nat
  tc : Nat
  rd : Nat
  ra : Nat
  z : Nat
  r_code : Nat
  qd_count : Nat
  an_count : Nat
  ns_count : Nat
  ar_count : Nat
deriving Repr, DecidableEq

/-- dns.rs `Question` (lines 76-86).  `name` is the raw byte sequence read
until (and including) the first zero byte.  The Rust field `class` is a Lean
keyword and is rendered `cls`. -/
structure Question where
  name : List Nat
  ty : Nat
  cls : Nat
deriving Repr, DecidableEq

/-- dns.rs `Record` (lines 88-105).  Note that `name` is a 16-bit integer
(`u16`), not a byte sequence: deku reads exactly two bytes for it.  The Rust
field `class` is rendered `cls`, `len` is the declared data length. -/
structure Record where
  name : Nat
  ty : Nat
  cls : Nat
  ttl : Nat
  len : Nat
  data : List Nat
deriving Repr, DecidableEq

/-- dns.rs `DNSPacket` (lines 14-21). -/
structure DNSPacket where
  header : Header
  questions : List Question
  answers : List Record
  authorities : List Record
  additionals : List Record
deriving Repr, DecidableEq

/-- deku decode of `Header` from a byte stream (`Header::from_bytes`):
`id` big-endian 16-bit, then the two flag bytes unpacked MSB-first in the
declared order `qr(1) opcode(4) aa(1) tc(1) rd(1) | ra(1) z(3) r_code(4)`,
then the four big-endian 16-bit counts.  Trailing bytes are ignored, as in
`let (_, header) = Header::from_bytes(..)` (dns.rs line 207). -/
def headerFromBytes : List Nat → Option Header
  | b0 :: b1 :: b2 :: b3 :: b4 :: b5 :: b6 :: b7 :: b8 :: b9 :: b10 :: b11 :: _ =>
    some { id := b0 * 256 + b1
           qr := b2 / 128
           opcode := b2 / 8 % 16
           aa := b2 / 4 % 2
           tc := b2 / 2 % 2
           rd := b2 % 2
           ra := b3 / 128
           z := b3 / 16 % 8
           r_code := b3 % 16
           qd_count := b4 * 256 + b5
           an_count := b6 * 256 + b7
           ns_count := b8 * 256 + b9
           ar_count := b10 * 256 + b11 }
  | _ => none

/-- deku's `until = |v| *v == 0` reader for `Question::name`: consumes bytes up
to and including the first zero; fails (`None`) if the input ends first. -/
def splitUntilZero : List Nat → Option (List Nat × List Nat)
  | [] => none
  | b :: rest =>
    if b = 0 then some ([0], rest)
    else (splitUntilZero rest).map (fun pr => (b :: pr.1, pr.2))

/-- deku decode of `Question` (`Question::try_from` on a byte slice): name
until the first zero inclusive, then big-endian `ty` and `class`; fails if
bytes are missing or left over (deku's `try_from` rejects trailing data). -/
def questionTryFrom (l : List Nat) : Option Question :=
  match splitUntilZero l with
  | none => none
  | some (nm, rest) =>
    match rest with
    | [t1, t2, c1, c2] => some { name := nm, ty := t1 * 256 + t2, cls := c1 * 256 + c2 }
    | _ => none

/-- deku decode of `Record` (`Record::try_from` on a byte slice): 2-byte
`name`, 2-byte `ty`, 2-byte `class`, 4-byte `ttl`, 2-byte `len`, then exactly
`len` bytes of `data`; fails if bytes are missing or left over. -/
def recordTryFrom : List Nat → Option Record
  | n1 :: n2 :: t1 :: t2 :: c1 :: c2 :: u1 :: u2 :: u3 :: u4 :: d1 :: d2 :: rest =>
    if rest.length = d1 * 256 + d2 then
      some { name := n1 * 256 + n2
             ty := t1 * 256 + t2
             cls := c1 * 256 + c2
             ttl := ((u1 * 256 + u2) * 256 + u3) * 256 + u4
             len := d1 * 256 + d2
             data := rest }
    else none
  | _ => none

/-- deku encode of `Header` (`Header::to_bytes`), inverse layout of
`headerFromBytes`.  deku writes the low `bits` bits of each flag field,
modelled by the `%` reductions. -/
def Header.toBytes (h : Header) : List Nat :=
  be2 h.id ++
  [h.qr % 2 * 128 + h.opcode % 16 * 8 + h.aa % 2 * 4 + h.tc % 2 * 2 + h.rd % 2,
   h.ra % 2 * 128 + h.z % 8 * 16 + h.r_code % 16] ++
  be2 h.qd_count ++ be2 h.an_count ++ be2 h.ns_count ++ be2 h.ar_count

/-- deku encode of `Question` (`Question::to_bytes`): the stored name bytes
verbatim, then big-endian `ty` and `class`. -/
def Question.toBytes (q : Question) : List Nat :=
  q.name ++ be2 q.ty ++ be2 q.cls

/-- deku encode of `Record` (`Record::to_bytes`): the write side of
`recordTryFrom`; the whole `data` vector is written (the `count` attribute
only constrains reading). -/
def Record.toBytes (r : Record) : List Nat :=
  be2 r.name ++ be2 r.ty ++ be2 r.cls ++ be4 r.ttl ++ be2 r.len ++ r.data

/-- dns.rs `DNSPacket::serialize` (lines 34-41): header bytes then the
concatenation (`monolithize`) of each section's encodings. -/
def DNSPacket.serialize (p : DNSPacket) : List Nat :=
  p.header.toBytes ++
  (p.questions.map Question.toBytes).flatten ++
  (p.answers.map Record.toBytes).flatten ++
  (p.authorities.map Record.toBytes).flatten ++
  (p.additionals.map Record.toBytes).flatten

/-- dns.rs `PacketParser` (lines 107-114): the fixed buffer, the cursor, and
the `decompress_map` (`HashMap<u8, Vec<u8>>`, modelled as an association list
with most-recent insertion first; it is written by `parse_name` but never
read). -/
structure ParserState where
  buffer : List Nat
  current : Nat
  decompressMap : List (Nat × List Nat)
deriving Repr, DecidableEq

/-- dns.rs `advance_n` (lines 148-158): bounds-checks `buffer.get(current + n)`
(note: index `current + n`, not `current + n - 1`), on failure reports
`current + n + 1` and the buffer length, on success returns the slice
`buffer[current .. current + n]` and advances the cursor by `n`. -/
def advance_n (st : ParserState) (n : Nat) : Except PErr (List Nat × ParserState) :=
  match st.buffer.get? (st.current + n) with
  | none => .error (.advanceErr (st.current + n + 1) st.buffer.length)
  | some _ => .ok ((st.buffer.drop st.current).take n, { st with current := st.current + n })

/-- dns.rs `get_name_length` (lines 137-143): the number of bytes from the
cursor up to the first zero byte, plus one. -/
def get_name_length (st : ParserState) : Nat :=
  ((st.buffer.drop st.current).takeWhile (fun b => b != 0)).length + 1

/-- dns.rs `parse_name` (lines 163-175) together with `get_current_byte`
(line 122) and `is_current_jmp` (line 127).  `get_current_byte` indexes the
buffer without a bounds check, so a cursor at or past the end panics
(`panicErr`).  If the current byte has its top two bits set the parser
consumes just the two pointer bytes and returns them unexpanded; otherwise it
consumes the zero-terminated name and records it in `decompress_map` under
the (truncated `u8`) post-advance cursor. -/
def parse_name (st : ParserState) : Except PErr (List Nat × ParserState) :=
  match st.buffer.get? st.current with
  | none => .error .panicErr
  | some b =>
    if b &&& 192 = 192 then
      advance_n st 2
    else
      match advance_n st (get_name_length st) with
      | .error e => .error e
      | .ok (nm, st1) =>
        .ok (nm, { st1 with decompressMap := (st1.current % 256, nm) :: st1.decompressMap })

/-- dns.rs question-section loop inside `deserialize` (lines 210-219): for
each of the `qd_count` slots, a name, then 4 fixed bytes, reassembled and fed
to `Question::try_from(..).unwrap()` — a deku failure there is a panic. -/
def parse_questions (st : ParserState) : Nat → Except PErr (List Question × ParserState)
  | 0 => .ok ([], st)
  | k + 1 =>
    match parse_name st with
    | .error e => .error e
    | .ok (nm, st1) =>
      match advance_n st1 4 with
      | .error e => .error e
      | .ok (four, st2) =>
        match questionTryFrom (nm ++ four) with
        | none => .error .panicErr
        | some q =>
          match parse_questions st2 k with
          | .error e => .error e
          | .ok (qs, st3) => .ok (q :: qs, st3)

/-- dns.rs `parse_record` (lines 177-200): for each slot, a name, 8 fixed
bytes (`ty`, `class`, `ttl`), the 2-byte length, then that many data bytes;
the pieces are reassembled (with the length re-serialized big-endian) and fed
to `Record::try_from(..).unwrap()` — a deku failure there is a panic. -/
def parse_records (st : ParserState) : Nat → Except PErr (List Record × ParserState)
  | 0 => .ok ([], st)
  | k + 1 =>
    match parse_name st with
    | .error e => .error e
    | .ok (nm, st1) =>
      match advance_n st1 8 with
      | .error e => .error e
      | .ok (chunk, st2) =>
        match advance_n st2 2 with
        | .error e => .error e
        | .ok (lenB, st3) =>
          match advance_n st3 (be16 lenB) with
          | .error e => .error e
          | .ok (dat, st4) =>
            match recordTryFrom (nm ++ chunk ++ be2 (be16 lenB) ++ dat) with
            | none => .error .panicErr
            | some r =>
              match parse_records st4 k with
              | .error e => .error e
              | .ok (rs, st5) => .ok (r :: rs, st5)

/-- dns.rs `deserialize` (lines 202-229): 12 header bytes (the
`Header::from_bytes(..).unwrap()` is modelled as a panic on failure, though
with 12 bytes it always succeeds), then exactly `qd_count` questions and
`an_count`/`ns_count`/`ar_count` records. -/
def deserializeBuf (buffer : List Nat) : Except PErr DNSPacket :=
  match advance_n ⟨buffer, 0, []⟩ 12 with
  | .error e => .error e
  | .ok (hb, st1) =>
    match headerFromBytes hb with
    | none => .error .panicErr
    | some header =>
      match parse_questions st1 header.qd_count with
      | .error e => .error e
      | .ok (qs, st2) =>
        match parse_records st2 header.an_count with
        | .error e => .error e
        | .ok (ans, st3) =>
          match parse_records st3 header.ns_count with
          | .error e => .error e
          | .ok (auth, st4) =>
            match parse_records st4 header.ar_count with
            | .error e => .error e
            | .ok (add, _) => .ok ⟨header, qs, ans, auth, add⟩

/-! ## The proxy loop (main.rs) -/

/-- Modelled from the spec: `Question::get_name_as_string` is called at
main.rs line 69 but its definition is absent from src.  Spec §3 (Name):
"Semantic value: the fully expanded dot-joined label sequence."  This splits
a stored name byte sequence into its length-prefixed labels; the fuel (first
argument) bounds the recursion and each step consumes at least one byte, so
`nameLabels` below supplies the byte count as fuel. -/
def nameLabelsAux : Nat → List Nat → List (List Nat)
  | 0, _ => []
  | _ + 1, [] => []
  | fuel + 1, n :: rest =>
    if n = 0 then [] else rest.take n :: nameLabelsAux fuel (rest.drop n)

/-- Modelled from the spec: the label sequence of a stored name. -/
def nameLabels (l : List Nat) : List (List Nat) := nameLabelsAux l.length l

/-- Modelled from the spec: the dot-joined rendering of a label sequence
(each byte one character code, 46 is the dot), completing the
`get_name_as_string` model. -/
def dotJoin : List (List Nat) → List Nat
  | [] => []
  | [l] => l
  | l :: ls => l ++ 46 :: dotJoin ls

/-- Rust `str::contains` on character sequences: `needle` occurs as a
contiguous substring of `hay`. -/
def containsSeq (hay needle : List Nat) : Bool :=
  if needle.isPrefixOf hay then true
  else
    match hay with
    | [] => false
    | _ :: t => containsSeq t needle

/-- The character codes of the hard-coded target string `"google.com"`
(main.rs line 69). -/
def googleComStr : List Nat := [103, 111, 111, 103, 108, 101, 46, 99, 111, 109]

/-- main.rs lines 68-73, the response-transform step ("performs a sneaky"):
it indexes `response.questions[0]` unconditionally — a panic when the
question section is empty — and, when the first question's name string
contains `"google.com"`, overwrites the `data` of every answer record with
the 4 bytes of `0x01030307`. -/
def applyTransform (p : DNSPacket) : Except PErr DNSPacket :=
  match p.questions with
  | [] => .error .panicErr
  | q :: _ =>
    if containsSeq (dotJoin (nameLabels q.name)) googleComStr then
      .ok { p with answers := p.answers.map (fun r => { r with data := [1, 3, 3, 7] }) }
    else .ok p

/-- Outcome of the inner response-wait loop of main.rs (lines 43-64). -/
inductive WaitOutcome where
  | matched (p : DNSPacket)
  | aborted
  | panicked
  | blocked
deriving Repr, DecidableEq

/-- main.rs lines 43-64: the wait loop, driven by the sequence of datagrams
received on the socket.  Each event is the (512-byte) receive buffer content
paired with `current_time.elapsed().as_secs()` at that iteration.  Transient
receive errors are retried transparently and so do not appear as events.
A datagram that fails to parse breaks out with `None` (`aborted`); a parse
panic aborts the process; a parse success with matching `id` breaks out with
the packet — the elapsed-time check runs only after a non-matching parse
success.  An exhausted event list means the loop would block on `recv_from`
forever (`blocked`). -/
def awaitResponse (qid : Nat) : List (List Nat × Nat) → WaitOutcome
  | [] => .blocked
  | (bytes, elapsed) :: rest =>
    match deserializeBuf bytes with
    | .error .panicErr => .panicked
    | .error _ => .aborted
    | .ok r =>
      if r.header.id = qid then .matched r
      else if 5 ≤ elapsed then .aborted
      else awaitResponse qid rest

/-- Outcome of one cycle of the main loop.  `toAwaiting s` means control
returns to the top of `loop` (the `AwaitingQuery` state), with `s` the reply
datagram sent to the client (if any); `panicked` means the process aborted;
`blockedWaiting` means the wait loop would block forever on `recv_from`. -/
inductive CycleOutcome where
  | toAwaiting (sent : Option (List Nat))
  | panicked
  | blockedWaiting
deriving Repr, DecidableEq

/-- One cycle of the main loop (main.rs lines 16-78): parse the query buffer
(parse `Err` → `continue`; parse panic → process abort), forward the raw
bytes upstream (`forwardOk` is the result of that `send_to`; on error,
`continue`), run the wait loop over `events`, and on a match apply the
transform and send the serialized reply (`replyOk` is the result of that
`send_to`, which is `unwrap`ped: an error there is a panic). -/
def runCycle (queryBuf : List Nat) (forwardOk : Bool) (events : List (List Nat × Nat))
    (replyOk : Bool) : CycleOutcome :=
  match deserializeBuf queryBuf with
  | .error .panicErr => .panicked
  | .error _ => .toAwaiting none
  | .ok query =>
    if forwardOk then
      match awaitResponse query.header.id events with
      | .panicked => .panicked
      | .blocked => .blockedWaiting
      | .aborted => .toAwaiting none
      | .matched resp =>
        match applyTransform resp with
        | .error _ => .panicked
        | .ok resp2 =>
          if replyOk then .toAwaiting (some resp2.serialize) else .panicked
    else .toAwaiting none

/-! ## Concrete inputs

The receive buffer in main.rs is a fixed `[u8; 512]`, and the parser always
walks that whole buffer, so concrete datagrams are padded to 512 bytes. -/

/-- Pad a datagram to the 512-byte receive buffer (zero-initialised). -/
def pad512 (l : List Nat) : List Nat := l ++ List.replicate (512 - l.length) 0

/-- A 12-byte header with the given `id`, `qd_count` and `an_count`, zero
flags and zero `ns_count`/`ar_count`. -/
def mkHdr (id qd an : Nat) : List Nat :=
  be2 id ++ [0, 0] ++ be2 qd ++ be2 an ++ be2 0 ++ be2 0

/-- The wire form of the name `google.com`: `[6]google[3]com[0]`. -/
def googleName : List Nat :=
  [6, 103, 111, 111, 103, 108, 101, 3, 99, 111, 109, 0]

/-- The wire form of the name `agoogle.com`: `[7]agoogle[3]com[0]`. -/
def agoogleName : List Nat :=
  [7, 97, 103, 111, 111, 103, 108, 101, 3, 99, 111, 109, 0]

/-- The wire form of the name `example.com`: `[7]example[3]com[0]`. -/
def exampleName : List Nat :=
  [7, 101, 120, 97, 109, 112, 108, 101, 3, 99, 111, 109, 0]

/-- The character codes of `example.com`. -/
def exampleComStr : List Nat :=
  [101, 120, 97, 109, 112, 108, 101, 46, 99, 111, 109]

/-- A well-formed query datagram: `id = 0x1234`, one question for
`google.com` with `ty = 1`, `class = 1`. -/
def queryBuf : List Nat := pad512 (mkHdr 0x1234 1 0 ++ googleName ++ [0, 1, 0, 1])

/-- The parsed form of `queryBuf`. -/
def queryPkt : DNSPacket :=
  ⟨⟨0x1234, 0, 0, 0, 0, 0, 0, 0, 0, 1, 0, 0, 0⟩, [⟨googleName, 1, 1⟩], [], [], []⟩

/-- A well-formed response datagram: `id = 0x1234`, the same question, and
one answer record whose name is the compression pointer `0xC0 0x0C` (offset
12, the question name), `ty = 1` (A), `class = 1`, `ttl = 0`, `len = 4`,
`data = 93.184.216.34`. -/
def respBuf : List Nat :=
  pad512 (mkHdr 0x1234 1 1 ++ googleName ++ [0, 1, 0, 1] ++
    [192, 12] ++ [0, 1, 0, 1] ++ [0, 0, 0, 0] ++ [0, 4] ++ [93, 184, 216, 34])

/-- The parsed form of `respBuf`: note the answer's `name` is the 16-bit
value `0xC00C = 49164`, the raw pointer bytes. -/
def respPkt : DNSPacket :=
  ⟨⟨0x1234, 0, 0, 0, 0, 0, 0, 0, 0, 1, 1, 0, 0⟩, [⟨googleName, 1, 1⟩],
   [⟨49164, 1, 1, 0, 4, [93, 184, 216, 34]⟩], [], []⟩

/-- `respPkt` after the transform: the answer data replaced by `1.3.3.7`. -/
def respPktT : DNSPacket :=
  ⟨⟨0x1234, 0, 0, 0, 0, 0, 0, 0, 0, 1, 1, 0, 0⟩, [⟨googleName, 1, 1⟩],
   [⟨49164, 1, 1, 0, 4, [1, 3, 3, 7]⟩], [], []⟩

/-- A datagram that fails to parse with a typed error (no panic): the header
declares one question, but the name bytes run to the end of the buffer with
no zero terminator, so `advance_n` overruns. -/
def badRespBuf : List Nat := mkHdr 0x1234 1 0 ++ List.replicate 500 1

/-- A buffer holding `example.com` at offset 12 and the compression pointer
`0xC0, 12` at offset 30 (the layout of spec §8's compression test). -/
def c2Buf : List Nat :=
  List.replicate 12 0 ++ exampleName ++ List.replicate 5 0 ++ [192, 12] ++
  List.replicate 480 0

/-- A buffer whose byte pair at offset 12 is a compression pointer whose
14-bit offset is 12 itself: a self-referential pointer. -/
def c6Buf : List Nat := pad512 (List.replicate 12 0 ++ [192, 12])

/-- A matching response with an empty question section (`qd_count = 0`). -/
def noQuestionRespBuf : List Nat := pad512 (mkHdr 0x1234 0 0)

/-- The parsed form of `noQuestionRespBuf`. -/
def noQuestionPkt : DNSPacket :=
  ⟨⟨0x1234, 0, 0, 0, 0, 0, 0, 0, 0, 0, 0, 0, 0⟩, [], [], [], []⟩

/-- The wait loop as the specification describes it (spec §4.4 / §8
"Correlation"): the deadline is checked first (a matching response arriving
after the deadline does not complete the cycle), a datagram that fails to
parse is discarded and waiting continues, and a well-formed datagram with the
wrong `id` is discarded and waiting continues.  Stated only to be compared
with `awaitResponse`, the behavior of the code. -/
def awaitResponseSpec (qid : Nat) : List (List Nat × Nat) → WaitOutcome
  | [] => .blocked
  | (bytes, elapsed) :: rest =>
    if 5 ≤ elapsed then .aborted
    else
      match deserializeBuf bytes with
      | .error _ => awaitResponseSpec qid rest
      | .ok r =>
        if r.header.id = qid then .matched r
        else awaitResponseSpec qid rest

/-! ## Helper lemmas -/

/-- `advance_n` in closed form: it succeeds exactly when `current + n` is a
valid index, i.e. when strictly more than `n` bytes remain. -/
theorem advance_n_eq (st : ParserState) (n : Nat) :
    advance_n st n =
      if st.current + n < st.buffer.length then
        .ok ((st.buffer.drop st.current).take n, { st with current := st.current + n })
      else .error (.advanceErr (st.current + n + 1) st.buffer.length) := by
  unfold advance_n
  rcases h : st.buffer.get? (st.current + n) with _ | b
  · rw [List.get?_eq_none] at h
    rw [if_neg (by omega)]
  · have hlt : st.current + n < st.buffer.length := by
      by_contra hc
      rw [List.get?_eq_none.mpr (by omega)] at h
      exact Option.noConfusion h
    rw [if_pos hlt]

/-- `parse_name` at a compression-pointer byte: it consumes exactly the two
pointer bytes, returns them verbatim, and leaves the decompression map
untouched. -/
theorem parse_name_jmp (buffer : List Nat) (c : Nat) (mp : List (Nat × List Nat)) (b : Nat)
    (hb : buffer.get? c = some b) (hjmp : b &&& 192 = 192) (hlt : c + 2 < buffer.length) :
    parse_name ⟨buffer, c, mp⟩ = .ok ((buffer.drop c).take 2, ⟨buffer, c + 2, mp⟩) := by
  unfold parse_name
  rw [hb]
  simp only [hjmp, if_pos]
  rw [advance_n_eq]
  simp only [if_pos hlt]

/-- A record produced by deku carries exactly `len` data bytes. -/
theorem recordTryFrom_data_length (l : List Nat) (r : Record)
    (h : recordTryFrom l = some r) : r.data.length = r.len := by
  unfold recordTryFrom at h
  split at h
  · split at h
    · cases h
      simpa using ‹_›
    · exact Option.noConfusion h
  · exact Option.noConfusion h

/-- Every record built by the record-section loop satisfies the data-length
invariant. -/
theorem parse_records_data_length :
    ∀ (k : Nat) (st : ParserState) (rs : List Record) (st' : ParserState),
      parse_records st k = .ok (rs, st') → ∀ r ∈ rs, r.data.length = r.len := by
  intro k
  induction k with
  | zero =>
    intro st rs st' h r hr
    simp only [parse_records] at h
    cases h
    simp at hr
  | succ n ih =>
    intro st rs st' h r hr
    simp only [parse_records] at h
    split at h
    · exact Except.noConfusion h
    · split at h
      · exact Except.noConfusion h
      · split at h
        · exact Except.noConfusion h
        · split at h
          · exact Except.noConfusion h
          · split at h
            · exact Except.noConfusion h
            · split at h
              · exact Except.noConfusion h
              · cases h
                rcases List.mem_cons.mp hr with hr0 | hrs
                · subst hr0
                  exact recordTryFrom_data_length _ _ ‹_›
                · exact ih _ _ _ ‹_› r hrs

/-- The question-section loop produces exactly as many questions as
requested. -/
theorem parse_questions_length :
    ∀ (k : Nat) (st : ParserState) (qs : List Question) (st' : ParserState),
      parse_questions st k = .ok (qs, st') → qs.length = k := by
  intro k
  induction k with
  | zero =>
    intro st qs st' h
    simp only [parse_questions] at h
    cases h
    rfl
  | succ n ih =>
    intro st qs st' h
    simp only [parse_questions] at h
    split at h
    · exact Except.noConfusion h
    · split at h
      · exact Except.noConfusion h
      · split at h
        · exact Except.noConfusion h
        · split at h
          · exact Except.noConfusion h
          · cases h
            simp [ih _ _ _ ‹_›]

/-- The record-section loop produces exactly as many records as requested. -/
theorem parse_records_length :
    ∀ (k : Nat) (st : ParserState) (rs : List Record) (st' : ParserState),
      parse_records st k = .ok (rs, st') → rs.length = k := by
  intro k
  induction k with
  | zero =>
    intro st rs st' h
    simp only [parse_records] at h
    cases h
    rfl
  | succ n ih =>
    intro st rs st' h
    simp only [parse_records] at h
    split at h
    · exact Except.noConfusion h
    · split at h
      · exact Except.noConfusion h
      · split at h
        · exact Except.noConfusion h
        · split at h
          · exact Except.noConfusion h
          · split at h
            · exact Except.noConfusion h
            · split at h
              · exact Except.noConfusion h
              · cases h
                simp [ih _ _ _ ‹_›]

/-- deku's until-zero reader recovers a properly terminated name exactly:
given a name whose interior bytes are all nonzero and whose final byte is the
zero terminator, it returns the name and the remaining input. -/
theorem splitUntilZero_append (pre rest : List Nat) (h : ∀ b ∈ pre, b ≠ 0) :
    splitUntilZero (pre ++ 0 :: rest) = some (pre ++ [0], rest) := by
  induction pre with
  | nil => simp [splitUntilZero]
  | cons b tl ih =>
    have hb : b ≠ 0 := h b (List.mem_cons_self b tl)
    simp only [List.cons_append, splitUntilZero, if_neg hb, List.append_eq]
    rw [ih (fun x hx => h x (List.mem_cons_of_mem b hx))]
    rfl

/-! ## Claim C1 -/

/-- C1: the claim says a send error aborts only the current cycle and never
terminates the process.  The code contradicts this: main.rs line 76 unwraps
the reply `send_to`, so after a well-formed query (`queryBuf`), a successful
forward, and a matching well-formed response (`respBuf`), a failing reply
send makes the process panic instead of returning to `AwaitingQuery`. -/
theorem C1_reply_send_error_panics :
    runCycle queryBuf true [(respBuf, 0)] false = .panicked := by decide

/-! ## Claim C2 -/

/-- C2 counterexample: in the buffer of spec §8's compression test
(`example.com` at offset 12, the pointer `0xC0, 12` at offset 30), decoding
the name at offset 30 consumes 2 bytes but yields the two raw pointer bytes
`[0xC0, 12]`, not the expanded name `example.com` — neither as wire bytes nor
as a dot-joined string.  The claim that the pointed-to name is expanded is
false. -/
theorem C2_pointer_yields_raw_bytes :
    c2Buf.get? 30 = some 192 ∧
    parse_name ⟨c2Buf, 30, []⟩ = .ok ([192, 12], ⟨c2Buf, 32, []⟩) ∧
    ([192, 12] : List Nat) ≠ exampleName ∧
    dotJoin (nameLabels [192, 12]) ≠ exampleComStr := by decide

/-- C2 amended: for every buffer position holding a compression-pointer byte
(top two bits `11`, with the two pointer bytes in bounds), `parse_name`
consumes exactly 2 bytes — the consumed-length half of the claim — but the
value it yields is the raw 2-byte pointer itself; the pointed-to name is
never expanded. -/
theorem C2_jmp_consumes_two_unexpanded (buffer : List Nat) (c : Nat)
    (mp : List (Nat × List Nat)) (b : Nat) (hb : buffer.get? c = some b)
    (hjmp : b &&& 192 = 192) (hlt : c + 2 < buffer.length) :
    parse_name ⟨buffer, c, mp⟩ = .ok ((buffer.drop c).take 2, ⟨buffer, c + 2, mp⟩) :=
  parse_name_jmp buffer c mp b hb hjmp hlt

/-- C2 witness: the amended theorem applied at the concrete pointer position
30 of `c2Buf`. -/
theorem C2_jmp_consumes_two_unexpanded_witness :
    parse_name ⟨c2Buf, 30, []⟩ = .ok ((c2Buf.drop 30).take 2, ⟨c2Buf, 30 + 2, []⟩) :=
  C2_jmp_consumes_two_unexpanded c2Buf 30 [] 192 (by decide) (by decide) (by decide)

/-! ## Claim C3 -/

/-- C3 counterexample: the claim says every parsed `Record` carries its
domain name as a full `Name` value in the same representation as a
`Question`'s name (a label sequence).  In fact `Record.name` is a 16-bit
integer: parsing `respBuf` succeeds and the answer record's name is the
number `0xC00C = 49164` (the two raw pointer bytes), while the question in
the same packet carries its name as the zero-terminated label byte sequence;
the record name's byte rendering `[192, 12]` is not even a terminated label
sequence (deku's until-zero reader rejects it). -/
theorem C3_record_name_not_label_sequence :
    deserializeBuf respBuf = .ok respPkt ∧
    respPkt.answers.map Record.name = [49164] ∧
    respPkt.questions.map Question.name = [googleName] ∧
    be2 49164 = [192, 12] ∧
    splitUntilZero [192, 12] = none := by decide

/-- C3 amended: every `Record` produced by parsing carries its name as a
16-bit integer (the big-endian value of the first two bytes of its wire-name
field, not a label sequence), together with `ty`, `class`, `ttl`, the
declared length `len`, and `data` of exactly `len` bytes.  The
data-of-exactly-declared-length half of the claim holds for all three record
sections of every successfully parsed packet. -/
theorem C3_parsed_record_data_length (buf : List Nat) (p : DNSPacket)
    (h : deserializeBuf buf = .ok p) :
    (∀ r ∈ p.answers, r.data.length = r.len) ∧
    (∀ r ∈ p.authorities, r.data.length = r.len) ∧
    (∀ r ∈ p.additionals, r.data.length = r.len) := by
  unfold deserializeBuf at h
  split at h
  · exact Except.noConfusion h
  · split at h
    · exact Except.noConfusion h
    · split at h
      · exact Except.noConfusion h
      · split at h
        · exact Except.noConfusion h
        · split at h
          · exact Except.noConfusion h
          · split at h
            · exact Except.noConfusion h
            · cases h
              exact ⟨parse_records_data_length _ _ _ _ ‹_›,
                     parse_records_data_length _ _ _ _ ‹_›,
                     parse_records_data_length _ _ _ _ ‹_›⟩

/-- C3 witness: the amended theorem at the concrete response `respBuf`. -/
theorem C3_parsed_record_data_length_witness :
    (∀ r ∈ respPkt.answers, r.data.length = r.len) ∧
    (∀ r ∈ respPkt.authorities, r.data.length = r.len) ∧
    (∀ r ∈ respPkt.additionals, r.data.length = r.len) :=
  C3_parsed_record_data_length respBuf respPkt (by decide)

/-! ## Claim C8 -/

/-- C8: each header count equals the number of entries actually present in
the corresponding parsed section — `deserialize` (dns.rs lines 202-229)
parses exactly `qd_count` questions and `an_count`/`ns_count`/`ar_count`
records, and any section that cannot be completed makes the whole parse fail
(`Err` on a cursor overrun, panic on a malformed reassembled entry), so a
partial `DNSPacket` is never returned. -/
theorem C8_section_counts (buf : List Nat) (p : DNSPacket)
    (h : deserializeBuf buf = .ok p) :
    p.questions.length = p.header.qd_count ∧
    p.answers.length = p.header.an_count ∧
    p.authorities.length = p.header.ns_count ∧
    p.additionals.length = p.header.ar_count := by
  unfold deserializeBuf at h
  split at h
  · exact Except.noConfusion h
  · split at h
    · exact Except.noConfusion h
    · split at h
      · exact Except.noConfusion h
      · split at h
        · exact Except.noConfusion h
        · split at h
          · exact Except.noConfusion h
          · split at h
            · exact Except.noConfusion h
            · cases h
              exact ⟨parse_questions_length _ _ _ _ ‹_›,
                     parse_records_length _ _ _ _ ‹_›,
                     parse_records_length _ _ _ _ ‹_›,
                     parse_records_length _ _ _ _ ‹_›⟩

/-- C8 witness: the theorem at the concrete response `respBuf`, whose header
declares one question and one answer. -/
theorem C8_section_counts_witness :
    respPkt.questions.length = respPkt.header.qd_count ∧
    respPkt.answers.length = respPkt.header.an_count ∧
    respPkt.authorities.length = respPkt.header.ns_count ∧
    respPkt.additionals.length = respPkt.header.ar_count :=
  C8_section_counts respBuf respPkt (by decide)

/-! ## Claim C4 -/

/-- C4 counterexample: the claim says a datagram that fails to parse is
discarded and waiting continues, and that a matching response arriving after
the deadline does not complete the cycle.  Both are false in the code
(main.rs lines 43-64).  With a malformed datagram at 0s followed by a
well-formed matching response at 1s, the code aborts the cycle at the first
datagram (`break None`) instead of waiting and matching, while the loop the
claim describes (`awaitResponseSpec`) matches; and a matching response
arriving at 9s — after the 5s deadline — still completes the cycle, because
the elapsed-time check runs only after the `id` check. -/
theorem C4_wait_loop_diverges_from_claim :
    awaitResponse 0x1234 [(badRespBuf, 0), (respBuf, 1)] = .aborted ∧
    awaitResponseSpec 0x1234 [(badRespBuf, 0), (respBuf, 1)] = .matched respPkt ∧
    awaitResponse 0x1234 [(respBuf, 9)] = .matched respPkt ∧
    awaitResponseSpec 0x1234 [(respBuf, 9)] = .aborted := by decide

/-- The wait loop of main.rs characterised: it exits with a matched packet
exactly when some received datagram parses successfully with the outstanding
`id`, every earlier datagram having parsed successfully with a non-matching
`id` before the deadline.  No deadline condition constrains the matching
datagram itself. -/
theorem awaitResponse_matched_iff :
    ∀ (qid : Nat) (events : List (List Nat × Nat)) (p : DNSPacket),
      awaitResponse qid events = .matched p ↔
        ∃ pre e post, events = pre ++ e :: post ∧
          (∀ e' ∈ pre, ∃ r, deserializeBuf e'.1 = .ok r ∧ r.header.id ≠ qid ∧ e'.2 < 5) ∧
          deserializeBuf e.1 = .ok p ∧ p.header.id = qid := by
  intro qid events p
  induction events with
  | nil =>
    simp only [awaitResponse]
    constructor
    · intro h; exact WaitOutcome.noConfusion h
    · rintro ⟨pre, e, post, habs, -, -, -⟩
      exact absurd habs (by simp)
  | cons hd rest ih =>
    obtain ⟨b, t⟩ := hd
    simp only [awaitResponse]
    rcases hdes : deserializeBuf b with err | r
    · cases err with
      | panicErr =>
        show WaitOutcome.panicked = WaitOutcome.matched p ↔ _
        constructor
        · intro h; exact WaitOutcome.noConfusion h
        · rintro ⟨pre, e, post, heq, hpre, hok, hid⟩
          cases pre with
          | nil =>
            simp only [List.nil_append, List.cons.injEq] at heq
            obtain ⟨heqe, -⟩ := heq
            subst heqe
            have hok2 : deserializeBuf b = .ok p := hok
            rw [hdes] at hok2
            exact Except.noConfusion hok2
          | cons p0 pre1 =>
            simp only [List.cons_append, List.cons.injEq] at heq
            obtain ⟨heqe, -⟩ := heq
            subst heqe
            obtain ⟨r, hr, -, -⟩ := hpre (b, t) (List.mem_cons_self _ _)
            have hr2 : deserializeBuf b = .ok r := hr
            rw [hdes] at hr2
            exact Except.noConfusion hr2
      | advanceErr pos len =>
        show WaitOutcome.aborted = WaitOutcome.matched p ↔ _
        constructor
        · intro h; exact WaitOutcome.noConfusion h
        · rintro ⟨pre, e, post, heq, hpre, hok, hid⟩
          cases pre with
          | nil =>
            simp only [List.nil_append, List.cons.injEq] at heq
            obtain ⟨heqe, -⟩ := heq
            subst heqe
            have hok2 : deserializeBuf b = .ok p := hok
            rw [hdes] at hok2
            exact Except.noConfusion hok2
          | cons p0 pre1 =>
            simp only [List.cons_append, List.cons.injEq] at heq
            obtain ⟨heqe, -⟩ := heq
            subst heqe
            obtain ⟨r, hr, -, -⟩ := hpre (b, t) (List.mem_cons_self _ _)
            have hr2 : deserializeBuf b = .ok r := hr
            rw [hdes] at hr2
            exact Except.noConfusion hr2
    · show (if r.header.id = qid then WaitOutcome.matched r
            else if 5 ≤ t then WaitOutcome.aborted
            else awaitResponse qid rest) = WaitOutcome.matched p ↔ _
      by_cases hid : r.header.id = qid
      · rw [if_pos hid]
        constructor
        · intro h
          cases h
          exact ⟨[], (b, t), rest, rfl, by simp, hdes, hid⟩
        · rintro ⟨pre, e, post, heq, hpre, hok, hpid⟩
          cases pre with
          | nil =>
            simp only [List.nil_append, List.cons.injEq] at heq
            obtain ⟨heqe, -⟩ := heq
            subst heqe
            have hok2 : deserializeBuf b = .ok p := hok
            rw [hdes] at hok2
            cases hok2
            rfl
          | cons p0 pre1 =>
            simp only [List.cons_append, List.cons.injEq] at heq
            obtain ⟨heqe, -⟩ := heq
            subst heqe
            obtain ⟨r2, hr2, hrid, -⟩ := hpre (b, t) (List.mem_cons_self _ _)
            have hr3 : deserializeBuf b = .ok r2 := hr2
            rw [hdes] at hr3
            cases hr3
            exact absurd hid hrid
      · rw [if_neg hid]
        by_cases ht : 5 ≤ t
        · rw [if_pos ht]
          constructor
          · intro h; exact WaitOutcome.noConfusion h
          · rintro ⟨pre, e, post, heq, hpre, hok, hpid⟩
            cases pre with
            | nil =>
              simp only [List.nil_append, List.cons.injEq] at heq
              obtain ⟨heqe, -⟩ := heq
              subst heqe
              have hok2 : deserializeBuf b = .ok p := hok
              rw [hdes] at hok2
              cases hok2
              exact absurd hpid hid
            | cons p0 pre1 =>
              simp only [List.cons_append, List.cons.injEq] at heq
              obtain ⟨heqe, -⟩ := heq
              subst heqe
              obtain ⟨r2, hr2, -, htlt⟩ := hpre (b, t) (List.mem_cons_self _ _)
              have htlt2 : t < 5 := htlt
              omega
        · rw [if_neg ht]
          rw [ih]
          constructor
          · rintro ⟨pre, e, post, heq, hpre, hok, hpid⟩
            refine ⟨(b, t) :: pre, e, post, by rw [heq, List.cons_append], ?_, hok, hpid⟩
            intro e' he'
            rcases List.mem_cons.mp he' with he0 | hmem
            · subst he0
              exact ⟨r, hdes, hid, by omega⟩
            · exact hpre e' hmem
          · rintro ⟨pre, e, post, heq, hpre, hok, hpid⟩
            cases pre with
            | nil =>
              simp only [List.nil_append, List.cons.injEq] at heq
              obtain ⟨heqe, -⟩ := heq
              subst heqe
              have hok2 : deserializeBuf b = .ok p := hok
              rw [hdes] at hok2
              cases hok2
              exact absurd hpid hid
            | cons p0 pre1 =>
              simp only [List.cons_append, List.cons.injEq] at heq
              obtain ⟨heqe, heqrest⟩ := heq
              subst heqe
              refine ⟨pre1, e, post, heqrest, ?_, hok, hpid⟩
              intro e' he'
              exact hpre e' (List.mem_cons_of_mem _ he')

/-- C4 amended: the wait loop exits to `Replying` on the first datagram that
parses successfully with the outstanding `id`, with no deadline condition on
that datagram (a matching response after the deadline still completes the
cycle); every earlier datagram must have been a well-formed non-matching one
arriving before the 5-second deadline, since a datagram that fails to parse
aborts the whole cycle at once (it does not keep waiting), and a well-formed
non-matching datagram at or past the deadline aborts with a timeout. -/
theorem C4_wait_loop_behavior :
    (∀ (qid : Nat) (events : List (List Nat × Nat)) (p : DNSPacket),
      awaitResponse qid events = .matched p ↔
        ∃ pre e post, events = pre ++ e :: post ∧
          (∀ e' ∈ pre, ∃ r, deserializeBuf e'.1 = .ok r ∧ r.header.id ≠ qid ∧ e'.2 < 5) ∧
          deserializeBuf e.1 = .ok p ∧ p.header.id = qid) ∧
    (∀ (qid : Nat) (b : List Nat) (t : Nat) (rest : List (List Nat × Nat)) (err : PErr),
      deserializeBuf b = .error err → err ≠ .panicErr →
      awaitResponse qid ((b, t) :: rest) = .aborted) := by
  refine ⟨awaitResponse_matched_iff, ?_⟩
  intro qid b t rest err hdes hne
  simp only [awaitResponse]
  rw [hdes]
  cases err with
  | panicErr => exact absurd rfl hne
  | advanceErr pos len => rfl

/-- C4 witness: the abort half of the amended theorem at the concrete
malformed datagram `badRespBuf`. -/
theorem C4_wait_loop_behavior_witness :
    awaitResponse 0x1234 [(badRespBuf, 0)] = .aborted :=
  C4_wait_loop_behavior.2 0x1234 badRespBuf 0 [] (.advanceErr 514 512)
    (by decide) (by decide)

/-! ## Claim C5 -/

/-- C5 counterexample: the claim says an advance of `n` bytes fails exactly
when fewer than `n` bytes remain.  On a 12-byte buffer with the cursor at 0,
exactly 12 bytes remain (not fewer), yet `advance_n _ 12` fails: the bounds
check `buffer.get(current + n)` (dns.rs line 149) demands index `current + n`
be valid, an off-by-one against the claim. -/
theorem C5_exact_fit_fails :
    advance_n ⟨List.replicate 12 0, 0, []⟩ 12 = .error (.advanceErr 13 12) ∧
    ¬((List.replicate 12 (0 : Nat)).length - 0 < 12) := by decide

/-- C5 amended: `advance_n` performs its bounds check before any indexed
read and fails with the error carrying `current + n + 1` and the buffer
length exactly when `current + n ≥ length` — that is, it succeeds only when
strictly more than `n` bytes remain (off by one from the claim); on success
it returns precisely the `n` bytes starting at the cursor, so no
out-of-range access occurs. -/
theorem C5_advance_n_bounds (st : ParserState) (n : Nat) :
    (advance_n st n =
      if st.current + n < st.buffer.length then
        .ok ((st.buffer.drop st.current).take n, { st with current := st.current + n })
      else .error (.advanceErr (st.current + n + 1) st.buffer.length)) ∧
    (st.current + n < st.buffer.length →
      ((st.buffer.drop st.current).take n).length = n) := by
  refine ⟨advance_n_eq st n, fun h => ?_⟩
  simp only [List.length_take, List.length_drop]
  omega

/-- C5 witness: the amended theorem at a concrete in-bounds advance. -/
theorem C5_advance_n_bounds_witness :
    advance_n ⟨List.replicate 12 0, 0, []⟩ 5 =
      .ok (((List.replicate 12 0).drop 0).take 5, ⟨List.replicate 12 0, 0 + 5, []⟩) ∧
    (((List.replicate 12 (0 : Nat)).drop 0).take 5).length = 5 := by
  constructor
  · have h := (C5_advance_n_bounds ⟨List.replicate 12 0, 0, []⟩ 5).1
    rwa [if_pos (by decide)] at h
  · exact (C5_advance_n_bounds ⟨List.replicate 12 0, 0, []⟩ 5).2 (by decide)

/-! ## Claim C7 -/

/-- C7: the round-trip law `decode (encode x) = x` for each of the three wire
structures, under structural validity: header fields within their bit widths,
question names properly terminated (interior bytes nonzero, final byte zero —
so no compression in the encoded form) with 16-bit `ty`/`class`, and records
with fields within width and `data` of exactly the declared length. -/
theorem C7_roundtrip :
    (∀ h : Header, h.id < 65536 → h.qr < 2 → h.opcode < 16 → h.aa < 2 → h.tc < 2 →
      h.rd < 2 → h.ra < 2 → h.z < 8 → h.r_code < 16 → h.qd_count < 65536 →
      h.an_count < 65536 → h.ns_count < 65536 → h.ar_count < 65536 →
      headerFromBytes h.toBytes = some h) ∧
    (∀ (pre : List Nat) (ty cls : Nat), (∀ b ∈ pre, b ≠ 0) →
      ty < 65536 → cls < 65536 →
      questionTryFrom (Question.toBytes ⟨pre ++ [0], ty, cls⟩) =
        some ⟨pre ++ [0], ty, cls⟩) ∧
    (∀ (nm ty cls ttl : Nat) (dat : List Nat), nm < 65536 → ty < 65536 →
      cls < 65536 → ttl < 4294967296 → dat.length < 65536 →
      recordTryFrom (Record.toBytes ⟨nm, ty, cls, ttl, dat.length, dat⟩) =
        some ⟨nm, ty, cls, ttl, dat.length, dat⟩) := by
  refine ⟨?_, ?_, ?_⟩
  · intro h hid hqr hop haa htc hrd hra hz hrc hqd han hns har
    obtain ⟨id, qr, op, aa, tc, rd, ra, z, rc, qd, an, ns, ar⟩ := h
    simp only [Header.toBytes, be2, List.cons_append, List.nil_append,
      headerFromBytes, Option.some.injEq, Header.mk.injEq] at *
    refine ⟨?_, ?_, ?_, ?_, ?_, ?_, ?_, ?_, ?_, ?_, ?_, ?_, ?_⟩ <;> omega
  · intro pre ty cls hpre hty hcls
    simp only [questionTryFrom, Question.toBytes, be2]
    rw [show pre ++ [0] ++ [ty / 256 % 256, ty % 256] ++ [cls / 256 % 256, cls % 256] =
          pre ++ 0 :: [ty / 256 % 256, ty % 256, cls / 256 % 256, cls % 256] by simp]
    rw [splitUntilZero_append pre _ hpre]
    simp only [Option.some.injEq, Question.mk.injEq, true_and, and_true,
      eq_self_iff_true]
    refine ⟨?_, ?_⟩ <;> omega
  · intro nm ty cls ttl dat hnm hty hcls httl hdat
    simp only [Record.toBytes, be2, be4, List.cons_append, List.nil_append,
      recordTryFrom]
    rw [if_pos (by omega)]
    simp only [Option.some.injEq, Record.mk.injEq, true_and, and_true,
      eq_self_iff_true]
    refine ⟨?_, ?_, ?_, ?_, ?_⟩ <;> omega

/-- C7 witness: each round-trip conjunct at a concrete valid value. -/
theorem C7_roundtrip_witness :
    headerFromBytes (Header.toBytes ⟨0x1234, 1, 0, 1, 0, 1, 1, 2, 0, 1, 2, 3, 4⟩) =
      some ⟨0x1234, 1, 0, 1, 0, 1, 1, 2, 0, 1, 2, 3, 4⟩ ∧
    questionTryFrom (Question.toBytes
        ⟨[6, 103, 111, 111, 103, 108, 101, 3, 99, 111, 109] ++ [0], 1, 1⟩) =
      some ⟨[6, 103, 111, 111, 103, 108, 101, 3, 99, 111, 109] ++ [0], 1, 1⟩ ∧
    recordTryFrom (Record.toBytes ⟨49164, 1, 1, 3600, [93, 184, 216, 34].length,
        [93, 184, 216, 34]⟩) =
      some ⟨49164, 1, 1, 3600, [93, 184, 216, 34].length, [93, 184, 216, 34]⟩ :=
  ⟨C7_roundtrip.1 ⟨0x1234, 1, 0, 1, 0, 1, 1, 2, 0, 1, 2, 3, 4⟩ (by decide) (by decide)
      (by decide) (by decide) (by decide) (by decide) (by decide) (by decide)
      (by decide) (by decide) (by decide) (by decide) (by decide),
   C7_roundtrip.2.1 [6, 103, 111, 111, 103, 108, 101, 3, 99, 111, 109] 1 1
      (by decide) (by decide) (by decide),
   C7_roundtrip.2.2 49164 1 1 3600 [93, 184, 216, 34]
      (by decide) (by decide) (by decide) (by decide) (by decide)⟩

/-! ## Claim C6 -/

/-- C6 counterexample: `c6Buf` holds at offset 12 the pointer `0xC0, 12`,
whose 14-bit offset is 12 — a self-reference.  The claim says decoding fails
with a `CompressionLoop` error; in fact decoding succeeds, returning the two
pointer bytes (and the code's error type has no `CompressionLoop` kind at
all: `PErr` faithfully has only the `advance_n` overrun error and panics). -/
theorem C6_self_pointer_succeeds :
    c6Buf.get? 12 = some 192 ∧ c6Buf.get? 13 = some 12 ∧
    192 % 64 * 256 + 12 = 12 ∧
    parse_name ⟨c6Buf, 12, []⟩ = .ok ([192, 12], ⟨c6Buf, 14, []⟩) := by decide

/-- C6 amended: a self-referential compression pointer never hangs and never
panics, but not through cycle detection (the `decompress_map` is written and
never read): pointers are simply never followed, so `parse_name` succeeds,
consuming the two pointer bytes. -/
theorem C6_self_pointer_harmless (buffer : List Nat) (c : Nat)
    (mp : List (Nat × List Nat)) (b b2 : Nat)
    (hb : buffer.get? c = some b) (hb2 : buffer.get? (c + 1) = some b2)
    (hjmp : b &&& 192 = 192) (hself : b % 64 * 256 + b2 = c)
    (hlt : c + 2 < buffer.length) :
    ∃ out, parse_name ⟨buffer, c, mp⟩ = .ok out ∧
      out.1.length = 2 ∧ out.2.current = c + 2 := by
  refine ⟨((buffer.drop c).take 2, ⟨buffer, c + 2, mp⟩),
    parse_name_jmp buffer c mp b hb hjmp hlt, ?_, rfl⟩
  simp only [List.length_take, List.length_drop]
  omega

/-- C6 witness: the amended theorem at the concrete self-pointer of
`c6Buf`. -/
theorem C6_self_pointer_harmless_witness :
    ∃ out, parse_name ⟨c6Buf, 12, []⟩ = .ok out ∧
      out.1.length = 2 ∧ out.2.current = 12 + 2 :=
  C6_self_pointer_harmless c6Buf 12 [] 192 12
    (by decide) (by decide) (by decide) (by decide) (by decide)

/-! ## Claim C9 -/

/-- A response packet whose first question names `agoogle.com` — a name that
is not equal to the target `google.com` — with one answer record of a
non-address type (`ty = 16`, TXT). -/
def c9Pkt : DNSPacket :=
  ⟨⟨0x2222, 0, 0, 0, 0, 0, 0, 0, 0, 1, 1, 0, 0⟩, [⟨agoogleName, 1, 1⟩],
   [⟨49164, 16, 1, 0, 4, [9, 9, 9, 9]⟩], [], []⟩

/-- C9 counterexample: the claim says the transform overwrites address-record
rdata exactly when the first question's expanded name *equals* the target
domain.  The code (main.rs line 69) tests substring containment on the name
string and overwrites *every* answer record's data regardless of type: for
`c9Pkt`, whose question names `agoogle.com` (≠ `google.com`) and whose only
answer is a TXT record (`ty = 16`), the data is still overwritten with
`1.3.3.7`. -/
theorem C9_transform_not_equality_not_type_checked :
    applyTransform c9Pkt =
      .ok ⟨⟨0x2222, 0, 0, 0, 0, 0, 0, 0, 0, 1, 1, 0, 0⟩, [⟨agoogleName, 1, 1⟩],
           [⟨49164, 16, 1, 0, 4, [1, 3, 3, 7]⟩], [], []⟩ ∧
    dotJoin (nameLabels agoogleName) ≠ googleComStr ∧
    (⟨49164, 16, 1, 0, 4, [9, 9, 9, 9]⟩ : Record).ty ≠ 1 := by decide

/-- C9 amended: the transform, applied once to every matched response,
overwrites the `data` of every answer record — regardless of record type —
with the 4 bytes of `1.3.3.7` exactly when the first question's dot-joined
name *contains* the target string `google.com` as a substring; and end to
end, for the query with `id = 0x1234` naming `google.com` (`queryBuf`) and a
matching upstream reply with one address-type answer (`respBuf`), the
outbound reply is the serialization of a packet with `id = 0x1234` whose
answer data is `[1, 3, 3, 7]`. -/
theorem C9_transform_behavior :
    (∀ (p : DNSPacket) (q : Question) (qs : List Question), p.questions = q :: qs →
      applyTransform p =
        .ok (if containsSeq (dotJoin (nameLabels q.name)) googleComStr then
              { p with answers := p.answers.map (fun r => { r with data := [1, 3, 3, 7] }) }
             else p)) ∧
    runCycle queryBuf true [(respBuf, 1)] true = .toAwaiting (some respPktT.serialize) ∧
    respPktT.header.id = 0x1234 ∧
    respPktT.answers.map Record.data = [[1, 3, 3, 7]] := by
  refine ⟨?_, by decide, by decide, by decide⟩
  intro p q qs hq
  unfold applyTransform
  rw [hq]
  show (if containsSeq (dotJoin (nameLabels q.name)) googleComStr then
          (Except.ok ({ header := p.header, questions := q :: qs,
                        answers := p.answers.map (fun r => { r with data := [1, 3, 3, 7] }),
                        authorities := p.authorities,
                        additionals := p.additionals } : DNSPacket) : Except PErr DNSPacket)
        else Except.ok p) = _
  by_cases hc : containsSeq (dotJoin (nameLabels q.name)) googleComStr = true
  · rw [if_pos hc, if_pos hc]
  · rw [if_neg hc, if_neg hc]

/-- C9 witness: the transform half of the amended theorem at the concrete
matched response `respPkt`, whose first question names `google.com`. -/
theorem C9_transform_behavior_witness :
    applyTransform respPkt =
      .ok (if containsSeq (dotJoin (nameLabels (⟨googleName, 1, 1⟩ : Question).name))
              googleComStr then
            { respPkt with
                answers := respPkt.answers.map (fun r => { r with data := [1, 3, 3, 7] }) }
           else respPkt) :=
  C9_transform_behavior.1 respPkt ⟨googleName, 1, 1⟩ [] rfl

/-! ## Claim C10 -/

/-- C10: the transform (main.rs line 69) indexes `response.questions[0]`
unconditionally, so for every successfully matched response whose question
section is empty the cycle panics — the proxy neither replies nor recovers.
The `qd_count = 0` precondition is exactly `resp.questions = []`, since by
`C8_section_counts` the parsed section length equals the count. -/
theorem C10_empty_question_section_panics (qbuf : List Nat)
    (events : List (List Nat × Nat)) (rOk : Bool) (q resp : DNSPacket)
    (hq : deserializeBuf qbuf = .ok q)
    (hm : awaitResponse q.header.id events = .matched resp)
    (hnoq : resp.questions = []) :
    runCycle qbuf true events rOk = .panicked := by
  unfold runCycle
  rw [hq]
  show (match awaitResponse q.header.id events with
        | .panicked => CycleOutcome.panicked
        | .blocked => CycleOutcome.blockedWaiting
        | .aborted => CycleOutcome.toAwaiting none
        | .matched resp =>
          match applyTransform resp with
          | .error _ => CycleOutcome.panicked
          | .ok resp2 =>
            if rOk then CycleOutcome.toAwaiting (some resp2.serialize)
            else CycleOutcome.panicked) = CycleOutcome.panicked
  rw [hm]
  show (match applyTransform resp with
        | .error _ => CycleOutcome.panicked
        | .ok resp2 =>
          if rOk then CycleOutcome.toAwaiting (some resp2.serialize)
          else CycleOutcome.panicked) = CycleOutcome.panicked
  unfold applyTransform
  rw [hnoq]

/-- C10 witness: a well-formed query and a matching response with
`qd_count = 0` drive the concrete cycle to a panic. -/
theorem C10_empty_question_section_panics_witness :
    runCycle queryBuf true [(noQuestionRespBuf, 0)] true = .panicked :=
  C10_empty_question_section_panics queryBuf [(noQuestionRespBuf, 0)] true
    queryPkt noQuestionPkt (by decide) (by decide) rfl

end MalDNS
